import Mathlib

/-!
# Verification of the cc-caffeine coordination core

A shallow embedding of the cc-caffeine repository's session ledger
(src/session.js), PID-file instance coordination (src/pid.js), and the
daemon's caffeine controller (src/system-tray.js), together with proofs of
the specification's testable properties.

Timestamps are modelled as natural numbers (milliseconds since the epoch);
two ISO-8601 strings produced by toISOString are equal exactly when the
underlying millisecond values are equal, so string equality on timestamps
in the source becomes numeric equality here.  The JavaScript subtraction
of two Date values is modelled as subtraction in Int (it can be negative).
The ledger object (string-keyed, insertion ordered) is modelled as an
association list.
-/

/-- Milliseconds since the epoch; stands for an ISO-8601 timestamp string. -/
abbrev Timestamp := Nat

/-- One ledger entry, from session.js: created_at, last_activity,
project_dir (optional, informational). -/
structure Session where
  created_at : Timestamp
  last_activity : Timestamp
  project_dir : Option String
deriving Repr, DecidableEq

/-- The parsed content of sessions.json: a string-keyed map of sessions
(modelled as an insertion-ordered association list) plus last_updated. -/
structure LedgerData where
  sessions : List (String × Session)
  last_updated : Timestamp
deriving Repr, DecidableEq

/-- session.js: SESSION_TIMEOUT = 15 * 60 * 1000 (15 minutes). -/
def SESSION_TIMEOUT : Nat := 15 * 60 * 1000

/-- The loop test in session.js: timeDiff = nowDate - lastActivity;
timeDiff >= SESSION_TIMEOUT.  The subtraction is over Int, as in JS. -/
def isExpired (now : Timestamp) (s : Session) : Bool :=
  decide ((SESSION_TIMEOUT : Int) ≤ (now : Int) - (s.last_activity : Int))

/-- The test in getActiveSessionsWithLock: timeDiff < SESSION_TIMEOUT. -/
def isActive (now : Timestamp) (s : Session) : Bool :=
  decide ((now : Int) - (s.last_activity : Int) < (SESSION_TIMEOUT : Int))

/-- Key lookup in the sessions object: data.sessions[sessionId]. -/
def findSession (sessionId : String) : List (String × Session) → Option Session
  | [] => none
  | e :: rest => if e.1 = sessionId then some e.2 else findSession sessionId rest

/-- Truthiness of data.sessions[sessionId]. -/
def hasSession (sessionId : String) (l : List (String × Session)) : Bool :=
  (findSession sessionId l).isSome

/-- The expiry sweep shared by addSessionWithLock, removeSessionWithLock and
cleanupExpiredSessionsWithLock: delete every entry whose last_activity is at
least SESSION_TIMEOUT before now, counting the deletions. -/
def cleanupSessions (now : Timestamp) :
    List (String × Session) → List (String × Session) × Nat
  | [] => ([], 0)
  | e :: rest =>
    let r := cleanupSessions now rest
    if isExpired now e.2 then (r.1, r.2 + 1) else (e :: r.1, r.2)

/-- Result record of addSessionWithLock:
{ id, cleaned_sessions, action } with action "added" or "updated". -/
structure AddResult where
  id : String
  cleaned_sessions : Nat
  action : String
deriving Repr, DecidableEq

/-- session.js addSessionWithLock, the locked critical section: read, sweep
expired entries, then update last_activity if the id exists else insert a
fresh session, bump last_updated, write, and classify the call as
"added"/"updated" by the source's post-write comparison of created_at and
last_activity against now.  Returns the written file content and the
result record. -/
def addSessionWithLock (now : Timestamp) (projectDir : Option String)
    (sessionId : String) (data : LedgerData) : LedgerData × AddResult :=
  let cleaned := cleanupSessions now data.sessions
  let sessions' :=
    if hasSession sessionId cleaned.1 then
      cleaned.1.map (fun e =>
        if e.1 = sessionId then (e.1, { e.2 with last_activity := now }) else e)
    else
      cleaned.1 ++ [(sessionId, ⟨now, now, projectDir⟩)]
  let data' : LedgerData := { sessions := sessions', last_updated := now }
  let isNewSession :=
    match findSession sessionId sessions' with
    | none => true
    | some s => s.created_at = now ∧ s.last_activity = now
  (data', { id := sessionId, cleaned_sessions := cleaned.2,
            action := if isNewSession then "added" else "updated" })

/-- Result record of removeSessionWithLock: { changes, cleaned_sessions }. -/
structure RemoveResult where
  changes : Nat
  cleaned_sessions : Nat
deriving Repr, DecidableEq

/-- session.js removeSessionWithLock: sweep expired entries, delete the
target id if present, and write the file only when something changed. -/
def removeSessionWithLock (now : Timestamp) (sessionId : String)
    (data : LedgerData) : LedgerData × RemoveResult :=
  let cleaned := cleanupSessions now data.sessions
  let removed :=
    if hasSession sessionId cleaned.1 then
      (cleaned.1.filter (fun e => e.1 ≠ sessionId), 1)
    else
      (cleaned.1, 0)
  let data' :=
    if removed.2 > 0 || cleaned.2 > 0 then
      { sessions := removed.1, last_updated := now }
    else data
  (data', { changes := removed.2, cleaned_sessions := cleaned.2 })

/-- One element of the list returned by getActiveSessionsWithLock:
{ id: sessionId, ...sessionData }. -/
structure ActiveSession where
  id : String
  created_at : Timestamp
  last_activity : Timestamp
  project_dir : Option String
deriving Repr, DecidableEq

/-- The accumulation loop of getActiveSessionsWithLock: push every entry
whose timeDiff is strictly below SESSION_TIMEOUT, with its id attached. -/
def activeSessions (now : Timestamp) :
    List (String × Session) → List ActiveSession
  | [] => []
  | e :: rest =>
    if isActive now e.2 then
      ⟨e.1, e.2.created_at, e.2.last_activity, e.2.project_dir⟩ ::
        activeSessions now rest
    else activeSessions now rest

/-- session.js getActiveSessionsWithLock: reads the file under the lock and
filters; it performs no write, so the file content component of the result
is the input ledger itself. -/
def getActiveSessionsWithLock (now : Timestamp) (data : LedgerData) :
    LedgerData × List ActiveSession :=
  (data, activeSessions now data.sessions)

/-- session.js cleanupExpiredSessionsWithLock: sweep expired entries and
write the file only when at least one entry was removed. -/
def cleanupExpiredSessionsWithLock (now : Timestamp) (data : LedgerData) :
    LedgerData × Nat :=
  let cleaned := cleanupSessions now data.sessions
  if cleaned.2 > 0 then
    ({ sessions := cleaned.1, last_updated := now }, cleaned.2)
  else (data, cleaned.2)

/-! ## PID-file instance coordination (src/pid.js) -/

/-- JavaScript String.prototype.trim: strip whitespace from both ends. -/
def jsTrim (s : String) : String :=
  ⟨((s.toList.dropWhile Char.isWhitespace).reverse.dropWhile
      Char.isWhitespace).reverse⟩

/-- Lowercase one ASCII character (the range the PID module compares). -/
def lowerChar (c : Char) : Char :=
  if 65 ≤ c.toNat ∧ c.toNat ≤ 90 then Char.ofNat (c.toNat + 32) else c

/-- JavaScript String.prototype.toLowerCase on ASCII content. -/
def jsToLower (s : String) : String :=
  ⟨s.toList.map lowerChar⟩

/-- Value of a digit string, most significant first. -/
def digitsToNat (ds : List Char) : Nat :=
  ds.foldl (fun a c => a * 10 + (c.toNat - 48)) 0

/-- JavaScript parseInt(s, 10) on an already-trimmed string: an optional
sign followed by the longest digit run; NaN (here: none) when no digit
follows the sign. -/
def parseIntJS (s : String) : Option Int :=
  let rest : Int × List Char :=
    match s.toList with
    | '-' :: r => (-1, r)
    | '+' :: r => (1, r)
    | cs => (1, cs)
  let ds := rest.2.takeWhile Char.isDigit
  if ds.isEmpty then none else some (rest.1 * (digitsToNat ds : Int))

/-- pid.js readPidFile: none models both an absent file (ENOENT is caught
and returns null) and unparseable or non-positive content
(isNaN(pid) or pid <= 0 returns null).  The function performs no write
and no unlink. -/
def readPidFile (pidFile : Option String) : Option Nat :=
  match pidFile with
  | none => none
  | some content =>
    match parseIntJS (jsTrim content) with
    | none => none
    | some v => if v ≤ 0 then none else some v.toNat

/-- Outcome of process.kill(pid, 0) in validatePid: the process is
signallable, or the probe raised ESRCH (no such process), or it raised
some other error such as EPERM. -/
inductive ProbeRes where
  | alive : ProbeRes
  | esrch : ProbeRes
  | otherErr : ProbeRes
deriving Repr, DecidableEq

/-- The environment pid.js interacts with: the PID file's content (none =
absent), the liveness probe, and the output of the ps command for a pid
(none models a non-zero exit code or a spawn error). -/
structure PidWorld where
  pidFile : Option String
  probe : Nat → ProbeRes
  psOutput : Nat → Option String

/-- needle occurs contiguously in haystack, starting at the head. -/
def beginsWith : List Char → List Char → Bool
  | [], _ => true
  | _ :: _, [] => false
  | a :: as, b :: bs => a = b && beginsWith as bs

/-- needle occurs contiguously somewhere in haystack
(String.prototype.includes). -/
def occursIn (needle : List Char) : List Char → Bool
  | [] => needle.isEmpty
  | c :: rest => beginsWith needle (c :: rest) || occursIn needle rest

/-- The command-line test of validatePid: trim and lowercase the ps
output, then look for "caffeine server" or "caffeine.js server". -/
def isCaffeineServer (output : String) : Bool :=
  let commandLine := (jsToLower (jsTrim output)).toList
  occursIn "caffeine server".toList commandLine ||
    occursIn "caffeine.js server".toList commandLine

/-- The second half of validatePid, reached when the process is considered
to exist: run ps on the pid; a failed or non-zero-exit command resolves
false, otherwise resolve the command-line test. -/
def cmdIdentifies (w : PidWorld) (pid : Nat) : Bool :=
  match w.psOutput pid with
  | none => false
  | some out => isCaffeineServer out

/-- pid.js validatePid: ESRCH from the probe resolves false at once; any
other probe outcome (success, or an error such as EPERM) means the process
is taken to exist and the command-line check decides. -/
def validatePid (w : PidWorld) (pid : Nat) : Bool :=
  match w.probe pid with
  | .esrch => false
  | _ => cmdIdentifies w pid

/-- pid.js removePidFile: unconditionally unlinks the PID file (an absent
file is already fine). -/
def removePidFile (w : PidWorld) : PidWorld :=
  { w with pidFile := none }

/-- pid.js isServerRunning: read the PID file (null means not running);
validate the pid; a stale pid is cleaned up by removing the PID file
before returning false.  Returns the answer and the resulting world. -/
def isServerRunning (w : PidWorld) : Bool × PidWorld :=
  match readPidFile w.pidFile with
  | none => (false, w)
  | some pid =>
    if validatePid w pid then (true, w)
    else (false, removePidFile w)

/-- Modelled from the spec: removePidFileWithLock, the PID-file removal
called by shutdownServer in system-tray.js, whose body is not among the
provided sources (only its caller is).  Spec section 4.3, releaseIfOwner:
"removes the PID Record only if the stored PID equals the caller's own
PID".  The stored PID is read as readPidFile reads it. -/
def removePidFileWithLock (selfPid : Nat) (pidFile : Option String) :
    Option String :=
  match readPidFile pidFile with
  | some p => if p = selfPid then none else pidFile
  | none => pidFile

/-! ## Caffeine controller (system-tray.js) -/

/-- The daemon-local tray state fields the controller reads and writes:
isCaffeinated and the powerSaveBlocker handle. -/
structure TrayState where
  isCaffeinated : Bool
  powerSaveBlockerId : Option Nat
deriving Repr, DecidableEq

/-- system-tray.js enableCaffeine: when not yet caffeinated, set the flag
and store the handle returned by powerSaveBlocker.start.  The second
component counts the start-suppression invocations made (0 or 1). -/
def enableCaffeine (handle : Nat) (st : TrayState) : TrayState × Nat :=
  if !st.isCaffeinated then
    ({ isCaffeinated := true, powerSaveBlockerId := some handle }, 1)
  else (st, 0)

/-- system-tray.js disableCaffeine: when caffeinated, clear the flag and,
if a handle is stored, call powerSaveBlocker.stop on it and clear it.
The second component counts the stop-suppression invocations made. -/
def disableCaffeine (st : TrayState) : TrayState × Nat :=
  if st.isCaffeinated then
    ({ isCaffeinated := false, powerSaveBlockerId := none },
      match st.powerSaveBlockerId with
      | some _ => 1
      | none => 0)
  else (st, 0)

/-- What one poll of updateCaffeineStatus produced: the ledger file content
after its sweep, the tray state, and how many start/stop capability
invocations the poll made. -/
structure TickResult where
  data : LedgerData
  state : TrayState
  starts : Nat
  stops : Nat
deriving Repr, DecidableEq

/-- system-tray.js updateCaffeineStatus: sweep expired sessions, list the
active ones, and fire enableCaffeine when there is demand and suppression
is off, disableCaffeine when there is no demand and suppression is on,
and nothing otherwise.  The tray-icon refresh is external and untracked. -/
def updateCaffeineStatus (now : Timestamp) (handle : Nat) (d : LedgerData)
    (st : TrayState) : TickResult :=
  let d1 := (cleanupExpiredSessionsWithLock now d).1
  let active := (getActiveSessionsWithLock now d1).2
  let shouldCaffeinate : Bool := active.length > 0
  let step : TrayState × Nat × Nat :=
    if shouldCaffeinate && !st.isCaffeinated then
      let r := enableCaffeine handle st
      (r.1, r.2, 0)
    else if !shouldCaffeinate && st.isCaffeinated then
      let r := disableCaffeine st
      (r.1, 0, r.2)
    else (st, 0, 0)
  ⟨d1, step.1, step.2.1, step.2.2⟩

/-- system-tray.js shutdownServer, restricted to the state it mutates that
is modelled here: polling stops (external), caffeine is force-disabled,
the tray is destroyed (external), and the PID record is removed through
removePidFileWithLock.  Returns the tray state, the PID file content, and
the number of stop-suppression invocations. -/
def shutdownServer (selfPid : Nat) (st : TrayState)
    (pidFile : Option String) : TrayState × Option String × Nat :=
  let r := disableCaffeine st
  (r.1, removePidFileWithLock selfPid pidFile, r.2)

/-! ## Derived notions used by the verification -/

/-- Sequential execution of a batch of addSessionWithLock calls (id and
clock value per call) against one ledger.  The file lock makes every
concurrent execution observationally equal to the sequential execution of
some serialization order, which this function ranges over. -/
def runAdds (pd : Option String) (d : LedgerData)
    (calls : List (String × Timestamp)) : LedgerData :=
  calls.foldl (fun acc c => (addSessionWithLock c.2 pd c.1 acc).1) d

/-- id is present in the ledger with a last_activity drawn from the time
set T; the induction invariant behind the no-lost-update property. -/
def TrackedIn (T : List Timestamp) (d : LedgerData) (id : String) : Prop :=
  ∃ s, (id, s) ∈ d.sessions ∧ s.last_activity ∈ T

/-- The data-model invariant of spec section 3: for any id present in the
ledger, created_at is at most last_activity. -/
def LedgerCreatedLeActivity (d : LedgerData) : Prop :=
  ∀ e ∈ d.sessions, e.2.created_at ≤ e.2.last_activity

/-- Every timestamp stored in the ledger was written at or before now:
the clock value used by an operation is not earlier than those of prior
operations. -/
def LedgerClockBound (now : Timestamp) (d : LedgerData) : Prop :=
  ∀ e ∈ d.sessions, e.2.last_activity ≤ now

/-! ## Basic lemmas about the expiry sweep and lookups -/

theorem cleanupSessions_fst (now : Timestamp) (l : List (String × Session)) :
    (cleanupSessions now l).1 = l.filter (fun e => !isExpired now e.2) := by
  induction l with
  | nil => rfl
  | cons e rest ih =>
    by_cases h : isExpired now e.2 <;>
      simp [cleanupSessions, List.filter_cons, h, ih]

theorem cleanupSessions_snd (now : Timestamp) (l : List (String × Session)) :
    (cleanupSessions now l).2 = l.countP (fun e => isExpired now e.2) := by
  induction l with
  | nil => rfl
  | cons e rest ih =>
    by_cases h : isExpired now e.2 <;>
      simp [cleanupSessions, List.countP_cons, h, ih]

theorem isActive_eq_not_isExpired (now : Timestamp) (s : Session) :
    isActive now s = !isExpired now s := by
  simp only [isActive, isExpired, ← decide_not, decide_eq_decide]
  omega

theorem isExpired_of_last_eq (now : Timestamp) (s : Session)
    (h : s.last_activity = now) : isExpired now s = false := by
  simp only [isExpired, decide_eq_false_iff_not, not_le, h, SESSION_TIMEOUT]
  omega

theorem mem_cleanupSessions (now : Timestamp) (l : List (String × Session)) :
    ∀ y ∈ (cleanupSessions now l).1, y ∈ l ∧ isExpired now y.2 = false := by
  intro y hy
  rw [cleanupSessions_fst] at hy
  have h := List.mem_filter.mp hy
  exact ⟨h.1, by simpa using h.2⟩

theorem cleanupSessions_count_zero (now : Timestamp)
    (l : List (String × Session)) (h : (cleanupSessions now l).2 = 0) :
    ∀ y ∈ l, isExpired now y.2 = false := by
  rw [cleanupSessions_snd] at h
  intro y hy
  simpa using List.countP_eq_zero.mp h y hy

theorem activeSessions_eq (now : Timestamp) (l : List (String × Session)) :
    activeSessions now l = (l.filter (fun e => isActive now e.2)).map
      (fun e => ⟨e.1, e.2.created_at, e.2.last_activity, e.2.project_dir⟩) := by
  induction l with
  | nil => rfl
  | cons e rest ih =>
    by_cases h : isActive now e.2 <;>
      simp [activeSessions, List.filter_cons, h, ih]

theorem hasSession_iff_exists (id : String) (l : List (String × Session)) :
    hasSession id l = true ↔ ∃ s, (id, s) ∈ l := by
  induction l with
  | nil => simp [hasSession, findSession]
  | cons e rest ih =>
    by_cases h : e.1 = id
    · simp only [hasSession, findSession, h, if_true, Option.isSome_some,
        true_iff]
      exact ⟨e.2, by simp [← h]⟩
    · simp only [hasSession, findSession, h, if_false]
      constructor
      · intro hh
        rcases ih.mp hh with ⟨s, hs⟩
        exact ⟨s, List.mem_cons.mpr (Or.inr hs)⟩
      · rintro ⟨s, hs⟩
        rcases List.mem_cons.mp hs with heq | hrest
        · exact absurd (congrArg Prod.fst heq.symm) h
        · exact ih.mpr ⟨s, hrest⟩

/-! ## Membership lemmas for the three mutating ledger operations -/

theorem addSession_mem_cases (now : Timestamp) (pd : Option String)
    (sid : String) (d : LedgerData) :
    ∀ e ∈ ((addSessionWithLock now pd sid d).1).sessions,
      (∃ x, x ∈ d.sessions ∧ isExpired now x.2 = false ∧
        (e = x ∨ e = (x.1, { x.2 with last_activity := now }))) ∨
      e = (sid, ⟨now, now, pd⟩) := by
  intro e he
  by_cases hs : hasSession sid (cleanupSessions now d.sessions).1 <;>
    simp only [addSessionWithLock, hs, if_true, if_false] at he
  · rcases List.mem_map.mp he with ⟨x, hx, rfl⟩
    rcases mem_cleanupSessions now d.sessions x hx with ⟨hx1, hx2⟩
    by_cases hk : x.1 = sid
    · exact Or.inl ⟨x, hx1, hx2, Or.inr (by simp [hk])⟩
    · exact Or.inl ⟨x, hx1, hx2, Or.inl (by simp [hk])⟩
  · rcases List.mem_append.mp he with h | h
    · rcases mem_cleanupSessions now d.sessions e h with ⟨h1, h2⟩
      exact Or.inl ⟨e, h1, h2, Or.inl rfl⟩
    · exact Or.inr (by simpa using h)

theorem addSession_preserves (now : Timestamp) (pd : Option String)
    (sid : String) (d : LedgerData) (id : String) (s : Session)
    (hmem : (id, s) ∈ d.sessions) (hexp : isExpired now s = false) :
    ∃ s', (id, s') ∈ ((addSessionWithLock now pd sid d).1).sessions ∧
      (s'.last_activity = s.last_activity ∨ s'.last_activity = now) := by
  have hcl : (id, s) ∈ (cleanupSessions now d.sessions).1 := by
    rw [cleanupSessions_fst]
    exact List.mem_filter.mpr ⟨hmem, by simp [hexp]⟩
  by_cases hs : hasSession sid (cleanupSessions now d.sessions).1 <;>
    simp only [addSessionWithLock, hs, if_true, if_false]
  · by_cases hk : id = sid
    · refine ⟨{ s with last_activity := now }, ?_, Or.inr rfl⟩
      have := List.mem_map_of_mem (fun e =>
        if e.1 = sid then (e.1, { e.2 with last_activity := now }) else e) hcl
      simpa [hk] using this
    · refine ⟨s, ?_, Or.inl rfl⟩
      have := List.mem_map_of_mem (fun e =>
        if e.1 = sid then (e.1, { e.2 with last_activity := now }) else e) hcl
      simpa [hk] using this
  · exact ⟨s, List.mem_append_left _ hcl, Or.inl rfl⟩

theorem addSession_mem_self (now : Timestamp) (pd : Option String)
    (sid : String) (d : LedgerData) :
    ∃ s', (sid, s') ∈ ((addSessionWithLock now pd sid d).1).sessions ∧
      s'.last_activity = now := by
  by_cases hs : hasSession sid (cleanupSessions now d.sessions).1 <;>
    simp only [addSessionWithLock, hs, if_true, if_false]
  · obtain ⟨s0, hs0⟩ := (hasSession_iff_exists sid _).mp hs
    refine ⟨{ s0 with last_activity := now }, ?_, rfl⟩
    have := List.mem_map_of_mem (fun e =>
      if e.1 = sid then (e.1, { e.2 with last_activity := now }) else e) hs0
    simpa using this
  · exact ⟨⟨now, now, pd⟩, List.mem_append_right _ (by simp), rfl⟩

theorem removeSession_fst (now : Timestamp) (sid : String) (d : LedgerData) :
    (removeSessionWithLock now sid d).1 =
      if hasSession sid (cleanupSessions now d.sessions).1 then
        { sessions :=
            (cleanupSessions now d.sessions).1.filter (fun e => e.1 ≠ sid),
          last_updated := now }
      else if (cleanupSessions now d.sessions).2 > 0 then
        { sessions := (cleanupSessions now d.sessions).1, last_updated := now }
      else d := by
  by_cases hs : hasSession sid (cleanupSessions now d.sessions).1 <;>
  by_cases hc : (cleanupSessions now d.sessions).2 > 0 <;>
    simp [removeSessionWithLock, hs, hc]

theorem removeSession_mem (now : Timestamp) (sid : String) (d : LedgerData) :
    ∀ e ∈ ((removeSessionWithLock now sid d).1).sessions,
      e ∈ d.sessions ∧ isExpired now e.2 = false := by
  intro e he
  rw [removeSession_fst] at he
  by_cases hs : hasSession sid (cleanupSessions now d.sessions).1 <;>
    simp only [hs, if_true, if_false] at he
  · exact mem_cleanupSessions now d.sessions e (List.mem_of_mem_filter he)
  · by_cases hc : (cleanupSessions now d.sessions).2 > 0 <;>
      simp only [hc, if_true, if_false] at he
    · exact mem_cleanupSessions now d.sessions e he
    · have hz : (cleanupSessions now d.sessions).2 = 0 := by omega
      exact ⟨he, cleanupSessions_count_zero now d.sessions hz e he⟩

theorem cleanupExpired_mem (now : Timestamp) (d : LedgerData) :
    ∀ e ∈ ((cleanupExpiredSessionsWithLock now d).1).sessions,
      e ∈ d.sessions ∧ isExpired now e.2 = false := by
  intro e he
  by_cases hc : (cleanupSessions now d.sessions).2 > 0 <;>
    simp only [cleanupExpiredSessionsWithLock, hc, if_true, if_false] at he
  · exact mem_cleanupSessions now d.sessions e he
  · have hz : (cleanupSessions now d.sessions).2 = 0 := by omega
    exact ⟨he, cleanupSessions_count_zero now d.sessions hz e he⟩

/-! ## Lemmas about the caffeine controller -/

theorem cleanupExpired_idem (now : Timestamp) (d : LedgerData) :
    cleanupExpiredSessionsWithLock now
        ((cleanupExpiredSessionsWithLock now d).1) =
      ((cleanupExpiredSessionsWithLock now d).1, 0) := by
  have key :
      (cleanupSessions now
        ((cleanupExpiredSessionsWithLock now d).1).sessions).2 = 0 := by
    rw [cleanupSessions_snd, List.countP_eq_zero]
    intro e he
    simp [(cleanupExpired_mem now d e he).2]
  generalize hg : (cleanupExpiredSessionsWithLock now d).1 = d1 at key ⊢
  simp [cleanupExpiredSessionsWithLock, key]

theorem activeSessions_cleanup (now : Timestamp) (d : LedgerData) :
    activeSessions now ((cleanupExpiredSessionsWithLock now d).1).sessions
      = activeSessions now d.sessions := by
  by_cases hc : (cleanupSessions now d.sessions).2 > 0 <;>
    simp only [cleanupExpiredSessionsWithLock, hc, if_true, if_false]
  rw [activeSessions_eq, activeSessions_eq, cleanupSessions_fst,
    List.filter_filter]
  congr 1
  apply List.filter_congr
  intro e _
  rw [isActive_eq_not_isExpired]
  cases isExpired now e.2 <;> rfl

theorem tick_data (now : Timestamp) (handle : Nat) (d : LedgerData)
    (st : TrayState) :
    (updateCaffeineStatus now handle d st).data
      = (cleanupExpiredSessionsWithLock now d).1 := rfl

theorem tick_state_isCaffeinated (now : Timestamp) (handle : Nat)
    (d : LedgerData) (st : TrayState) :
    (updateCaffeineStatus now handle d st).state.isCaffeinated
      = decide (0 < (activeSessions now
          ((cleanupExpiredSessionsWithLock now d).1).sessions).length) := by
  simp only [updateCaffeineStatus, getActiveSessionsWithLock]
  cases h1 : decide (0 < (activeSessions now
      ((cleanupExpiredSessionsWithLock now d).1).sessions).length) <;>
    cases h2 : st.isCaffeinated <;>
      simp [enableCaffeine, disableCaffeine, h1, h2]

theorem tick_noop (now : Timestamp) (handle : Nat) (d : LedgerData)
    (st : TrayState)
    (hclean : cleanupExpiredSessionsWithLock now d = (d, 0))
    (hst : st.isCaffeinated
      = decide (0 < (activeSessions now d.sessions).length)) :
    (updateCaffeineStatus now handle d st).starts = 0 ∧
      (updateCaffeineStatus now handle d st).stops = 0 := by
  simp only [updateCaffeineStatus, getActiveSessionsWithLock, hclean, hst]
  cases hdec : decide (0 < (activeSessions now d.sessions).length) <;>
    simp [hdec]

/-! ## Lemmas for the no-lost-update property -/

theorem tracked_step (T : List Timestamp) (t0 : Timestamp) (pd : Option String)
    (sid : String) (d : LedgerData) (id : String)
    (hT : t0 ∈ T)
    (hW : ∀ u ∈ T, (t0 : Int) - (u : Int) < (SESSION_TIMEOUT : Int))
    (h : TrackedIn T d id) :
    TrackedIn T ((addSessionWithLock t0 pd sid d).1) id := by
  rcases h with ⟨s, hmem, hTs⟩
  have hexp : isExpired t0 s = false := by
    have hw := hW _ hTs
    simp only [isExpired, decide_eq_false_iff_not, not_le]
    exact hw
  rcases addSession_preserves t0 pd sid d id s hmem hexp with ⟨s', hmem', hlast⟩
  refine ⟨s', hmem', ?_⟩
  rcases hlast with h' | h'
  · rw [h']; exact hTs
  · rw [h']; exact hT

theorem tracked_self (T : List Timestamp) (t0 : Timestamp) (pd : Option String)
    (sid : String) (d : LedgerData) (hT : t0 ∈ T) :
    TrackedIn T ((addSessionWithLock t0 pd sid d).1) sid := by
  rcases addSession_mem_self t0 pd sid d with ⟨s', hmem, hlast⟩
  exact ⟨s', hmem, by rw [hlast]; exact hT⟩

theorem runAdds_tracked (pd : Option String) :
    ∀ (calls : List (String × Timestamp)) (T : List Timestamp)
      (d : LedgerData),
      (∀ c ∈ calls, c.2 ∈ T) →
      (∀ u ∈ T, ∀ v ∈ T, (v : Int) - (u : Int) < (SESSION_TIMEOUT : Int)) →
      ∀ id, (TrackedIn T d id ∨ ∃ c ∈ calls, c.1 = id) →
        TrackedIn T (runAdds pd d calls) id := by
  intro calls
  induction calls with
  | nil =>
    intro T d _ _ id h
    rcases h with h | ⟨c, hc, _⟩
    · exact h
    · exact absurd hc (List.not_mem_nil c)
  | cons c rest ih =>
    intro T d hsub hW id h
    have hcT : c.2 ∈ T := hsub c (List.mem_cons_self c rest)
    show TrackedIn T (runAdds pd ((addSessionWithLock c.2 pd c.1 d).1) rest) id
    apply ih T _ (fun c' hc' => hsub c' (List.mem_cons_of_mem c hc')) hW
    rcases h with h | ⟨c', hc', hid⟩
    · exact Or.inl (tracked_step T c.2 pd c.1 d id hcT
        (fun u hu => hW u hu c.2 hcT) h)
    · rcases List.mem_cons.mp hc' with heq | hrest
      · exact Or.inl (hid ▸ heq ▸ tracked_self T c.2 pd c.1 d hcT)
      · exact Or.inr ⟨c', hrest, hid⟩

/-! ## The claims -/

/-- C1: the spec's idempotent-renew property fails on the source.  With no
time elapsed between the calls (identical clock value, here 0), the second
addSessionWithLock call for the same id also reports action "added"
(created = true), because the post-write classification compares the
stored created_at and last_activity against the current timestamp; the
session's created_at is nonetheless unchanged across both calls. -/
theorem addOrRenew_twice_same_instant_reports_added :
    ((addSessionWithLock 0 none "s1" (⟨[], 0⟩ : LedgerData)).2.action
        = "added") ∧
    ((addSessionWithLock 0 none "s1"
        (addSessionWithLock 0 none "s1" (⟨[], 0⟩ : LedgerData)).1).2.action
        = "added") ∧
    (findSession "s1"
        ((addSessionWithLock 0 none "s1"
          (addSessionWithLock 0 none "s1"
            (⟨[], 0⟩ : LedgerData)).1).1).sessions
        = some ⟨0, 0, none⟩) := by
  decide

/-- C2: during shutdown the PID record is removed exactly when the stored
PID equals the shutting-down process's own PID; when it differs the file is
left untouched.  The removal routine shutdownServer calls
(removePidFileWithLock) is modelled from the spec, its body being absent
from the provided sources. -/
theorem shutdownServer_removes_pid_only_if_owner (selfPid : Nat)
    (st : TrayState) (pidFile : Option String) :
    (readPidFile pidFile = some selfPid →
      (shutdownServer selfPid st pidFile).2.1 = none) ∧
    (readPidFile pidFile ≠ some selfPid →
      (shutdownServer selfPid st pidFile).2.1 = pidFile) := by
  constructor
  · intro h
    simp [shutdownServer, removePidFileWithLock, h]
  · intro h
    simp only [shutdownServer, removePidFileWithLock]
    cases hr : readPidFile pidFile with
    | none => rfl
    | some p =>
      have hp : ¬(p = selfPid) := fun hp => h (by rw [hr, hp])
      show (if p = selfPid then none else pidFile) = pidFile
      exact if_neg hp

/-- C2 witness: a shutting-down daemon with PID 42 leaves a PID file that
now stores 99 untouched. -/
theorem shutdownServer_owner_witness :
    (shutdownServer 42 ⟨false, none⟩ (some "99")).2.1 = some "99" :=
  (shutdownServer_removes_pid_only_if_owner 42 ⟨false, none⟩ (some "99")).2
    (by decide)

/-- C3: after any of the three mutating ledger operations — addOrRenew,
remove, sweepExpired — no entry of the resulting ledger is expired with
respect to the operation's clock value: every session whose last_activity
lies at least SESSION_TIMEOUT before now is absent from the result,
whatever session the operation targets. -/
theorem ledger_ops_purge_expired (now : Timestamp) (d : LedgerData)
    (sid : String) (pd : Option String) :
    (∀ e ∈ ((addSessionWithLock now pd sid d).1).sessions,
      isExpired now e.2 = false) ∧
    (∀ e ∈ ((removeSessionWithLock now sid d).1).sessions,
      isExpired now e.2 = false) ∧
    (∀ e ∈ ((cleanupExpiredSessionsWithLock now d).1).sessions,
      isExpired now e.2 = false) := by
  refine ⟨?_, fun e he => (removeSession_mem now sid d e he).2,
    fun e he => (cleanupExpired_mem now d e he).2⟩
  intro e he
  rcases addSession_mem_cases now pd sid d e he with ⟨x, -, hexp, hcase⟩ | rfl
  · rcases hcase with rfl | rfl
    · exact hexp
    · exact isExpired_of_last_eq now _ rfl
  · exact isExpired_of_last_eq now _ rfl

/-- C3 witness: renewing "s1" at time 900000 over a ledger holding an
expired session leaves only unexpired entries. -/
theorem ledger_ops_purge_expired_witness :
    isExpired 900000 (⟨900000, 900000, none⟩ : Session) = false :=
  (ledger_ops_purge_expired 900000
      (⟨[("old", ⟨0, 0, none⟩)], 0⟩ : LedgerData) "s1" none).1
    ("s1", ⟨900000, 900000, none⟩) (by decide)

/-- C4: the exclusive file lock makes every addSessionWithLock critical
section atomic, so any concurrent execution of the calls equals the
sequential execution (runAdds) of some serialization order of them; for
every such order of distinct-id calls whose clock values lie within one
SESSION_TIMEOUT window of each other, every id called is present in the
resulting ledger — no update is lost. -/
theorem concurrent_addOrRenew_no_lost_updates (pd : Option String)
    (d : LedgerData) (calls : List (String × Timestamp))
    (_hdistinct : (calls.map Prod.fst).Nodup)
    (hwindow : ∀ c₁ ∈ calls, ∀ c₂ ∈ calls,
      (c₂.2 : Int) - (c₁.2 : Int) < (SESSION_TIMEOUT : Int)) :
    ∀ c ∈ calls, hasSession c.1 (runAdds pd d calls).sessions = true := by
  intro c hc
  have htr := runAdds_tracked pd calls (calls.map Prod.snd) d
    (fun c' hc' => List.mem_map_of_mem Prod.snd hc')
    (by
      intro u hu v hv
      rcases List.mem_map.mp hu with ⟨c1, hc1, rfl⟩
      rcases List.mem_map.mp hv with ⟨c2, hc2, rfl⟩
      exact hwindow c1 hc1 c2 hc2)
    c.1 (Or.inr ⟨c, hc, rfl⟩)
  rcases htr with ⟨s, hmem, -⟩
  exact (hasSession_iff_exists c.1 _).mpr ⟨s, hmem⟩

/-- C4 witness: two racing adds with distinct ids at close instants both
land in the ledger. -/
theorem concurrent_addOrRenew_witness :
    hasSession "a"
      (runAdds none (⟨[], 0⟩ : LedgerData) [("a", 5), ("b", 7)]).sessions
      = true :=
  concurrent_addOrRenew_no_lost_updates none ⟨[], 0⟩ [("a", 5), ("b", 7)]
    (by decide) (by decide) ("a", 5) (by decide)

/-- C5: a parseable stored PID that is stale — dead (probe raises ESRCH)
or belonging to a process whose command line does not identify the
caffeine server — makes isServerRunning return false and, as a side
effect, remove the PID file before returning. -/
theorem isServerRunning_stale_pid_self_heal (w : PidWorld) (pid : Nat)
    (hr : readPidFile w.pidFile = some pid)
    (hstale : w.probe pid = ProbeRes.esrch ∨ cmdIdentifies w pid = false) :
    isServerRunning w = (false, { w with pidFile := none }) := by
  have hv : validatePid w pid = false := by
    rcases hstale with h | h
    · simp [validatePid, h]
    · unfold validatePid
      cases hp : w.probe pid <;> simp [h]
  simp [isServerRunning, hr, hv, removePidFile]

/-- C5 witness: a PID file storing 7 while process 7 is dead is removed
and isServerRunning answers false. -/
theorem isServerRunning_self_heal_witness :
    isServerRunning ⟨some "7", fun _ => ProbeRes.esrch, fun _ => none⟩
      = (false, { (⟨some "7", fun _ => ProbeRes.esrch,
          fun _ => none⟩ : PidWorld) with pidFile := none }) :=
  isServerRunning_stale_pid_self_heal
    ⟨some "7", fun _ => ProbeRes.esrch, fun _ => none⟩ 7
    (by decide) (Or.inl rfl)

/-- C6: starting from a non-suppressing state over a ledger with at least
one active session, the first poll invokes the start-suppression
capability exactly once and the second poll, run on the resulting ledger
and state, invokes neither capability; and in general the second of two
consecutive polls at one instant never invokes start or stop again. -/
theorem tick_twice_starts_once (now : Timestamp) (h1 h2 : Nat)
    (d : LedgerData) (st : TrayState)
    (hoff : st.isCaffeinated = false)
    (hactive : (getActiveSessionsWithLock now d).2 ≠ []) :
    ((updateCaffeineStatus now h1 d st).starts = 1 ∧
      (updateCaffeineStatus now h1 d st).stops = 0) ∧
    ((updateCaffeineStatus now h2 (updateCaffeineStatus now h1 d st).data
        (updateCaffeineStatus now h1 d st).state).starts = 0 ∧
      (updateCaffeineStatus now h2 (updateCaffeineStatus now h1 d st).data
        (updateCaffeineStatus now h1 d st).state).stops = 0) ∧
    (∀ (d' : LedgerData) (st' : TrayState),
      (updateCaffeineStatus now h2 (updateCaffeineStatus now h1 d' st').data
        (updateCaffeineStatus now h1 d' st').state).starts = 0 ∧
      (updateCaffeineStatus now h2 (updateCaffeineStatus now h1 d' st').data
        (updateCaffeineStatus now h1 d' st').state).stops = 0) := by
  have hsecond : ∀ (d' : LedgerData) (st' : TrayState),
      (updateCaffeineStatus now h2 (updateCaffeineStatus now h1 d' st').data
        (updateCaffeineStatus now h1 d' st').state).starts = 0 ∧
      (updateCaffeineStatus now h2 (updateCaffeineStatus now h1 d' st').data
        (updateCaffeineStatus now h1 d' st').state).stops = 0 := by
    intro d' st'
    have hd : (updateCaffeineStatus now h1 d' st').data
        = (cleanupExpiredSessionsWithLock now d').1 := rfl
    rw [hd]
    exact tick_noop now h2 _ _ (cleanupExpired_idem now d')
      (tick_state_isCaffeinated now h1 d' st')
  refine ⟨?_, hsecond d st, hsecond⟩
  have hlen : 0 < (activeSessions now
      ((cleanupExpiredSessionsWithLock now d).1).sessions).length := by
    rw [activeSessions_cleanup]
    exact List.length_pos.mpr hactive
  have hdec : decide (0 < (activeSessions now
      ((cleanupExpiredSessionsWithLock now d).1).sessions).length)
      = true := decide_eq_true hlen
  constructor <;>
    · simp only [updateCaffeineStatus, getActiveSessionsWithLock]
      simp [hoff, enableCaffeine, hdec]

/-- C6 witness: one fresh session, suppression off: the first poll starts
suppression exactly once. -/
theorem tick_twice_witness :
    (updateCaffeineStatus 0 1 (⟨[("s1", ⟨0, 0, none⟩)], 0⟩ : LedgerData)
      ⟨false, none⟩).starts = 1 :=
  ((tick_twice_starts_once 0 1 2 ⟨[("s1", ⟨0, 0, none⟩)], 0⟩ ⟨false, none⟩
    rfl (by decide)).1).1

/-- C7: listActive leaves the ledger untouched and returns exactly the
stored sessions whose last_activity is strictly less than SESSION_TIMEOUT
in the past, each with its id attached; and in the scenario
empty ledger → addOrRenew "s1" → listActive, exactly one entry comes back,
with id "s1" and created_at equal to last_activity. -/
theorem listActive_spec (now t0 : Timestamp) (d : LedgerData)
    (pd : Option String) :
    (getActiveSessionsWithLock now d).1 = d ∧
    (getActiveSessionsWithLock now d).2
      = (d.sessions.filter (fun e => isActive now e.2)).map
          (fun e => ⟨e.1, e.2.created_at, e.2.last_activity,
            e.2.project_dir⟩) ∧
    (getActiveSessionsWithLock now
        (addSessionWithLock now pd "s1" (⟨[], t0⟩ : LedgerData)).1).2
      = [⟨"s1", now, now, pd⟩] := by
  refine ⟨rfl, activeSessions_eq now d.sessions, ?_⟩
  show activeSessions now
    ((addSessionWithLock now pd "s1" (⟨[], t0⟩ : LedgerData)).1).sessions = _
  have hsess : ((addSessionWithLock now pd "s1"
      (⟨[], t0⟩ : LedgerData)).1).sessions = [("s1", ⟨now, now, pd⟩)] := by
    simp [addSessionWithLock, cleanupSessions, hasSession, findSession]
  rw [hsess]
  have hact : isActive now (⟨now, now, pd⟩ : Session) = true := by
    rw [isActive_eq_not_isExpired, isExpired_of_last_eq now _ rfl]
    rfl
  simp [activeSessions, hact]

/-- C8: every mutating ledger operation preserves the invariant
created_at ≤ last_activity, provided the operation's clock value is not
earlier than any timestamp already stored in the ledger. -/
theorem ledger_ops_preserve_created_le_last (now : Timestamp)
    (d : LedgerData) (sid : String) (pd : Option String)
    (hInv : LedgerCreatedLeActivity d) (hClock : LedgerClockBound now d) :
    LedgerCreatedLeActivity (addSessionWithLock now pd sid d).1 ∧
    LedgerCreatedLeActivity (removeSessionWithLock now sid d).1 ∧
    LedgerCreatedLeActivity (cleanupExpiredSessionsWithLock now d).1 := by
  refine ⟨?_, fun e he => hInv e (removeSession_mem now sid d e he).1,
    fun e he => hInv e (cleanupExpired_mem now d e he).1⟩
  intro e he
  rcases addSession_mem_cases now pd sid d e he with ⟨x, hx, -, hcase⟩ | heq
  · rcases hcase with heq | heq
    · rw [heq]
      exact hInv x hx
    · rw [heq]
      simpa using le_trans (hInv x hx) (hClock x hx)
  · rw [heq]

/-- C8 witness: renewing "s1" over a well-formed ledger at a later clock
keeps the invariant. -/
theorem ledger_ops_preserve_witness :
    LedgerCreatedLeActivity
      (addSessionWithLock 5 none "s1"
        (⟨[("a", ⟨1, 2, none⟩)], 2⟩ : LedgerData)).1 :=
  (ledger_ops_preserve_created_le_last 5 ⟨[("a", ⟨1, 2, none⟩)], 2⟩ "s1" none
    (by unfold LedgerCreatedLeActivity; decide)
    (by unfold LedgerClockBound; decide)).1

/-- C9: a liveness-probe failure other than ESRCH (e.g. EPERM) is treated
as "the process exists": validatePid answers exactly what the command-line
check answers, as for a signallable process; in particular, when the
command line identifies the caffeine server, isServerRunning answers true
and the PID record is kept. -/
theorem probe_error_treated_as_exists (w : PidWorld) (pid : Nat)
    (herr : w.probe pid ≠ ProbeRes.esrch) :
    validatePid w pid = cmdIdentifies w pid ∧
    (readPidFile w.pidFile = some pid → cmdIdentifies w pid = true →
      isServerRunning w = (true, w)) := by
  have hv : validatePid w pid = cmdIdentifies w pid := by
    unfold validatePid
    cases hp : w.probe pid
    · rfl
    · exact absurd hp herr
    · rfl
  refine ⟨hv, fun hr hc => ?_⟩
  simp [isServerRunning, hr, hv, hc]

/-- C9 witness: a probe that fails with EPERM on the stored PID 7, whose
command line names the caffeine server, leaves isServerRunning true and
the record in place. -/
theorem probe_error_witness :
    isServerRunning ⟨some "7", fun _ => ProbeRes.otherErr,
        fun _ => some "node caffeine.js server"⟩
      = (true, ⟨some "7", fun _ => ProbeRes.otherErr,
          fun _ => some "node caffeine.js server"⟩) :=
  (probe_error_treated_as_exists
    ⟨some "7", fun _ => ProbeRes.otherErr,
      fun _ => some "node caffeine.js server"⟩ 7
    (by decide)).2 (by decide) (by decide)

/-- C10: a present PID file whose content yields no positive integer makes
readPidFile answer null — without error and without deleting the file —
and isServerRunning then answers false while the malformed file stays in
place: the stale-record self-heal does not run. -/
theorem unparseable_pid_file_left_in_place (w : PidWorld) (content : String)
    (hc : w.pidFile = some content)
    (hbad : ∀ v : Int, parseIntJS (jsTrim content) = some v → v ≤ 0) :
    readPidFile w.pidFile = none ∧ isServerRunning w = (false, w) ∧
    (isServerRunning w).2.pidFile = some content := by
  have hnone : readPidFile w.pidFile = none := by
    rw [hc]
    show (match parseIntJS (jsTrim content) with
      | none => none
      | some v => if v ≤ 0 then none else some v.toNat) = none
    cases hp : parseIntJS (jsTrim content) with
    | none => rfl
    | some v => simp [hbad v hp]
  have hnone2 : readPidFile (some content) = none := by
    rw [← hc]
    exact hnone
  refine ⟨hnone, ?_, ?_⟩
  · simp [isServerRunning, hnone]
  · simp [isServerRunning, hc, hnone2]

/-- C10 witness: a PID file holding "junk" is kept, and isServerRunning
answers false. -/
theorem unparseable_pid_witness :
    isServerRunning ⟨some "junk", fun _ => ProbeRes.alive, fun _ => none⟩
      = (false, ⟨some "junk", fun _ => ProbeRes.alive, fun _ => none⟩) :=
  (unparseable_pid_file_left_in_place
    ⟨some "junk", fun _ => ProbeRes.alive, fun _ => none⟩ "junk" rfl
    (fun v h => by
      rw [show parseIntJS (jsTrim "junk") = none from by decide] at h
      exact Option.noConfusion h)).2.1
